import Mathlib

/-
Verification of the chunking, retrieval, grounding and session components of a
small retrieval-augmented-generation toolchain.  Pure fragments of the Python
sources are embedded as Lean functions; external collaborators (embedding
provider, vector index, language model, tokenizer) appear as function
parameters or are modelled from their documented contracts.  Python strings
are embedded as Lean strings or as lists of characters, Python exceptions as
Except values.
-/

namespace RagDemo

variable {α : Type*}

/-
Chunker.  The command line tool show_chunks.py dispatches on a method name and
delegates the actual splitting to library text splitters that are not part of
the repository sources.  The splitting strategies themselves are therefore
modelled from the specification, which requires every strategy to honour the
configured overlap: chunk i+1 begins at an offset such that the last
overlap units of chunk i reappear at the start of chunk i+1.
-/

inductive ChunkError where
  | InvalidConfiguration : ChunkError
  | UnknownMethod : String → ChunkError
  deriving DecidableEq

def method_recursive : String := "recursive"

def method_character : String := "character"

def method_token : String := "token"

/-- Modelled from the spec: the sliding window realising the overlap contract
of section 4.1 over a stream of units (characters or tokens); successive
chunks start at offsets that differ by the stride s - o.  The fuel argument
bounds the recursion and equals the input length at the top-level call. -/
def sliding_window (s o : Nat) : Nat → List α → List (List α)
  | 0, _ => []
  | fuel + 1, text =>
    if text.length ≤ s then [text]
    else text.take s :: sliding_window s o fuel (text.drop (s - o))

/-- Modelled from the spec: split a unit stream into chunks of target size s
with overlap o; an empty input yields the empty chunk sequence. -/
def split_units (s o : Nat) (text : List α) : List (List α) :=
  if text.isEmpty then [] else sliding_window s o text.length text

/-- Embedding of chunk_text from show_chunks.py.  The dispatch on the method
name and the unknown-method error are taken from the source; the strategies
and the InvalidConfiguration check (required by the spec whenever the overlap
is at least the chunk size, the library splitters being outside the
repository sources) are modelled from the spec.  The token strategy encodes
the text with a black-box tokenizer, chunks the token stream and decodes each
chunk back to characters. -/
def chunk_text (encode : List Char → List Nat) (decode : Nat → List Char)
    (method : String) (chunk_size chunk_overlap : Nat) (text : List Char) :
    Except ChunkError (List (List Char)) :=
  if method = method_recursive then
    if chunk_size ≤ chunk_overlap then Except.error ChunkError.InvalidConfiguration
    else Except.ok (split_units chunk_size chunk_overlap text)
  else if method = method_character then
    if chunk_size ≤ chunk_overlap then Except.error ChunkError.InvalidConfiguration
    else Except.ok (split_units chunk_size chunk_overlap text)
  else if method = method_token then
    if chunk_size ≤ chunk_overlap then Except.error ChunkError.InvalidConfiguration
    else Except.ok ((split_units chunk_size chunk_overlap (encode text)).map
      (fun ts => (ts.map decode).flatten))
  else Except.error (ChunkError.UnknownMethod method)

/-- A concrete tokenizer for closed evaluations: each token packs two
consecutive characters and decodes back to them. -/
def enc0 : List Char → List Nat
  | a :: b :: rest => (a.toNat * 1000 + b.toNat) :: enc0 rest
  | _ => []

/-- Decoder matching enc0. -/
def dec0 (n : Nat) : List Char := [Char.ofNat (n / 1000), Char.ofNat (n % 1000)]

/-- A concrete six-character text for closed evaluations. -/
def txt0 : List Char := ['a', 'b', 'c', 'd', 'e', 'f']

/-- The last o units of chunk a equal the first o units of chunk b. -/
def overlap_matches (o : Nat) (a b : List α) : Prop :=
  a.drop (a.length - o) = b.take o

instance (o : Nat) [DecidableEq α] (a b : List α) :
    Decidable (overlap_matches o a b) :=
  inferInstanceAs (Decidable (a.drop (a.length - o) = b.take o))

/-- The overlap discipline of the spec: the overlap equation holds at every
internal boundary, the first chunk starts at the start of the text (no
leading overlap) and the last chunk ends at the end of the text (no trailing
overlap). -/
def honors_overlap (o : Nat) (text : List α) (chunks : List (List α)) : Prop :=
  List.Chain' (overlap_matches o) chunks ∧
  (∀ c, chunks.head? = some c → ∃ n, c = text.take n) ∧
  (∀ c, chunks.getLast? = some c → ∃ n, c = text.drop n)

/-
Retriever.  chat_with_docs.py embeds the query, asks the chroma collection
for the two nearest documents and joins them with newlines.  The vector index
is an external collaborator: its query operation is modelled from the
contract in the spec (up to k records, ordered by similarity descending,
ties broken by insertion order, failure on an empty index), with the
similarity of a stored embedding to the current query abstracted into a
black-box scoring function.
-/

inductive RagError where
  | IndexUnavailable : RagError
  | EmbeddingProviderError : RagError
  deriving DecidableEq

/-- One stored record of the vector index: id, embedding vector, raw chunk
text and the metadata written by the indexer. -/
structure EmbRecord where
  id : String
  embedding : List Rat
  document : List Char
  source : String
  file_type : String
  deriving DecidableEq

/-- Record a ranks at least as high as record b under the similarity score of
the current query. -/
def rank_le (score : List Rat → Rat) (a b : EmbRecord) : Prop :=
  score b.embedding ≤ score a.embedding

instance (score : List Rat → Rat) (a b : EmbRecord) :
    Decidable (rank_le score a b) :=
  inferInstanceAs (Decidable (score b.embedding ≤ score a.embedding))

/-- Modelled from the spec: the stored records sorted by similarity score
descending; the sort is stable, so ties keep insertion order. -/
def similarity_rank (score : List Rat → Rat) (store : List EmbRecord) :
    List EmbRecord :=
  List.insertionSort (rank_le score) store

/-- Modelled from the spec: the query operation of the vector index
collaborator.  It returns the texts of the up to k most similar records,
most similar first, and fails on an empty index. -/
def collection_query (score : List Rat → Rat) (store : List EmbRecord)
    (k : Nat) : Except RagError (List (List Char)) :=
  if store.isEmpty then Except.error RagError.IndexUnavailable
  else Except.ok (((similarity_rank score store).take k).map (fun r => r.document))

/-- The fixed number of results requested by get_relevant_context. -/
def n_results : Nat := 2

/-- Embedding of get_relevant_context from chat_with_docs.py: query the
collection for n_results documents and join them with newlines into one
context string.  The query embedding step is absorbed into the score
parameter. -/
def get_relevant_context (score : List Rat → Rat) (store : List EmbRecord) :
    Except RagError (List Char) :=
  match collection_query score store n_results with
  | Except.error e => Except.error e
  | Except.ok docs => Except.ok (List.intercalate ['\n'] docs)

/-- Modelled from the spec: opening the collection fails when the index has
never been created (chromadb get_collection raises in main when the
collection does not exist). -/
def get_collection (index : Option (List EmbRecord)) :
    Except RagError (List EmbRecord) :=
  match index with
  | none => Except.error RagError.IndexUnavailable
  | some store => Except.ok store

/-- A degenerate score for closed evaluations. -/
def score0 : List Rat → Rat := fun _ => 0

/-- A concrete stored record for closed evaluations. -/
def rec0 : EmbRecord := ⟨"doc_0", [], ['h', 'i'], "a.txt", "txt"⟩

/-
Indexer.  make_chroma_vectorstore.py loads documents, splits them, embeds
every chunk, assigns ids from an enumeration counter that starts at zero and
performs one bulk add into the chroma collection.  The embedding provider is
a function parameter returning Except, modelling an embedding call that can
raise; the bulk add is modelled from the spec contract of the vector index
collaborator as an append.
-/

/-- One chunked document as produced by the splitter: its text and the source
path from its metadata. -/
structure Doc where
  page_content : List Char
  source : String
  deriving DecidableEq

def dot_char : Char := '.'

def unknown_type : String := "unknown"

/-- Embedding of the file type metadata computation of process_documents:
the extension of the source path without its leading dot, or unknown when the
extension is empty.  The model treats the path as a plain file name. -/
def file_type_of (source : String) : String :=
  if source.data.contains dot_char then
    let ext := (source.data.splitOn dot_char).getLastD []
    if ext.isEmpty then unknown_type else String.mk ext
  else unknown_type

/-- Embedding of the id assignment of process_documents: the i-th embedded
chunk of a run receives the id doc_i. -/
def doc_id (i : Nat) : String := "doc_" ++ toString i

/-- The embedding record assembled for the i-th chunk of a run. -/
def mk_emb_record (i : Nat) (v : List Rat) (d : Doc) : EmbRecord :=
  ⟨doc_id i, v, d.page_content, d.source, file_type_of d.source⟩

/-- Embedding of the enumeration loop of process_documents: embed each chunk
in order, assign ids from the running counter and collect the records; the
first embedding failure aborts the whole run, as an uncaught exception
would. -/
def build_records (embed : List Char → Except String (List Rat)) :
    List Doc → Nat → Except String (List EmbRecord)
  | [], _ => Except.ok []
  | d :: ds, i =>
    match embed d.page_content with
    | Except.error e => Except.error e
    | Except.ok v =>
      match build_records embed ds (i + 1) with
      | Except.error e => Except.error e
      | Except.ok rest => Except.ok (mk_emb_record i v d :: rest)

/-- Embedding of the tail of process_documents: all chunks are embedded
before the single bulk add, which is modelled from the spec contract of the
vector index as an append; an embedding failure leaves the store untouched
and surfaces the error. -/
def process_documents (embed : List Char → Except String (List Rat))
    (docs : List Doc) (store : List EmbRecord) :
    List EmbRecord × Option String :=
  match build_records embed docs 0 with
  | Except.error e => (store, some e)
  | Except.ok batch => (store ++ batch, none)

/-- An embedding provider that always succeeds, for closed evaluations. -/
def embed0 : List Char → Except String (List Rat) := fun _ => Except.ok []

def boom_msg : String := "boom"

/-- An embedding provider that always fails, for closed evaluations. -/
def embed_fail : List Char → Except String (List Rat) :=
  fun _ => Except.error boom_msg

/-- Concrete documents for closed evaluations. -/
def docA : Doc := ⟨['a'], "a.txt"⟩

def docB : Doc := ⟨['b'], "b.txt"⟩

/-
Grounded generator and session loop.  chat_with_docs.py builds a two-message
prompt from a fixed system instruction and a template embedding the context
and the query, invokes the chat model and prints the stripped response; the
interactive loop strips the raw input, exits on quit or exit after
lowercasing, skips empty input and catches any per-query exception.
-/

inductive Role where
  | system : Role
  | user : Role
  deriving DecidableEq

structure Message where
  role : Role
  content : List Char
  deriving DecidableEq

/-- Embedding of the fixed system instruction of generate_response. -/
def system_message : String :=
  "You are a helpful assistant that only answers questions based on the provided context. \n    If you cannot find the answer in the context, say \"I cannot answer this question based on the available documents.\"\n    Do not make up or infer information that is not directly supported by the context."

/-- Embedding of the user-turn template of generate_response. -/
def human_message (context query : List Char) : List Char :=
  "Context: ".data ++ context ++ "\n\n    Question: ".data ++ query

/-- The two-message prompt of generate_response, system instruction first. -/
def build_messages (context query : List Char) : List Message :=
  [⟨Role.system, system_message.data⟩,
    ⟨Role.user, human_message context query⟩]

/-- Embedding of generate_response: submit the two-message prompt to the
language model, a black-box parameter that may fail, and hand back its
response content unchanged. -/
def generate_response (llm : List Message → Except String (List Char))
    (context query : List Char) : Except String (List Char) :=
  llm (build_messages context query)

/-- Python str.strip: remove whitespace from both ends. -/
def py_strip (l : List Char) : List Char :=
  ((l.dropWhile Char.isWhitespace).reverse.dropWhile Char.isWhitespace).reverse

/-- Python str.lower: lowercase every character. -/
def py_lower (l : List Char) : List Char := l.map Char.toLower

/-- One observable step of the session loop. -/
inductive ChatEvent where
  | assistant : List Char → ChatEvent
  | errorReport : String → ChatEvent
  | skipped : ChatEvent
  | exited : ChatEvent
  deriving DecidableEq

/-- Embedding of the try block of the main loop: retrieve context for the
stripped query, generate a response and print the stripped response; any
failure is caught and reported as an error event. -/
def handle_query (retrieve : List Char → Except String (List Char))
    (llm : List Message → Except String (List Char)) (query : List Char) :
    ChatEvent :=
  match retrieve query with
  | Except.error e => ChatEvent.errorReport e
  | Except.ok context =>
    match generate_response llm context query with
    | Except.error e => ChatEvent.errorReport e
    | Except.ok response => ChatEvent.assistant (py_strip response)

def exit_commands : List (List Char) := ["quit".data, "exit".data]

/-- Embedding of the main loop of chat_with_docs.py over a finite input
stream: strip the raw input, break on an exit command after lowercasing,
skip input that is empty after stripping, otherwise handle the query and
continue with the next input. -/
def chat_loop (retrieve : List Char → Except String (List Char))
    (llm : List Message → Except String (List Char)) :
    List (List Char) → List ChatEvent
  | [] => []
  | raw :: rest =>
    let query := py_strip raw
    if py_lower query ∈ exit_commands then [ChatEvent.exited]
    else if query = [] then ChatEvent.skipped :: chat_loop retrieve llm rest
    else handle_query retrieve llm query :: chat_loop retrieve llm rest

/-- Session fixtures for closed evaluations. -/
def ctx0 : List Char := ['c', 't', 'x']

def resp0 : List Char := [' ', 'o', 'k', ' ']

def q0 : List Char := ['h', 'i']

def quit_raw : List Char := [' ', ' ', 'Q', 'U', 'I', 'T', ' ', ' ']

def blank_raw : List Char := [' ', ' ', ' ']

def retrieve0 : List Char → Except String (List Char) := fun _ => Except.ok ctx0

def retrieve_fail : List Char → Except String (List Char) :=
  fun _ => Except.error boom_msg

def llm0 : List Message → Except String (List Char) := fun _ => Except.ok resp0

theorem sliding_window_ne_nil {s o : Nat} {text : List α} (ht : text ≠ [])
    {fuel : Nat} (hf : text.length ≤ fuel) : sliding_window s o fuel text ≠ [] := by
  cases fuel with
  | zero => exact absurd (List.length_eq_zero.mp (Nat.le_zero.mp hf)) ht
  | succ fuel =>
    simp only [sliding_window]
    split
    · simp
    · simp

theorem sliding_window_head {s o : Nat} (ho : o ≤ s) {text : List α} (ht : text ≠ [])
    {fuel : Nat} (hf : text.length ≤ fuel) :
    ∃ c, (sliding_window s o fuel text).head? = some c ∧ c.take o = text.take o ∧
      ∃ n, c = text.take n := by
  cases fuel with
  | zero => exact absurd (List.length_eq_zero.mp (Nat.le_zero.mp hf)) ht
  | succ fuel =>
    simp only [sliding_window]
    split
    · exact ⟨text, rfl, rfl, text.length, text.take_length.symm⟩
    · refine ⟨text.take s, rfl, ?_, s, rfl⟩
      rw [List.take_take, Nat.min_eq_left ho]

theorem sliding_window_chain {s o : Nat} (ho : o < s) :
    ∀ (fuel : Nat) (text : List α), text.length ≤ fuel →
      List.Chain' (overlap_matches o) (sliding_window s o fuel text)
  | 0, _, _ => List.chain'_nil
  | fuel + 1, text, hf => by
    simp only [sliding_window]
    split
    · exact List.chain'_singleton _
    · rename_i hlen
      push_neg at hlen
      have hrlen : (text.drop (s - o)).length = text.length - (s - o) :=
        List.length_drop _ _
      have hrne : text.drop (s - o) ≠ [] := by
        intro hnil
        rw [hnil] at hrlen
        simp at hrlen
        omega
      have hrfuel : (text.drop (s - o)).length ≤ fuel := by
        rw [hrlen]; omega
      rw [List.chain'_cons']
      constructor
      · intro y hy
        obtain ⟨c, hc, hco, -⟩ :=
          sliding_window_head (Nat.le_of_lt ho) hrne hrfuel (s := s) (o := o)
        rw [hc] at hy
        cases hy
        show (text.take s).drop ((text.take s).length - o) = _
        rw [hco]
        have hts : (text.take s).length = s := by
          rw [List.length_take]; omega
        rw [hts, List.drop_take]
        congr 1
        omega
      · exact sliding_window_chain ho fuel (text.drop (s - o)) hrfuel

theorem sliding_window_getLast {s o : Nat} (ho : o < s) :
    ∀ (fuel : Nat) (text : List α), text.length ≤ fuel → ∀ c,
      (sliding_window s o fuel text).getLast? = some c → ∃ n, c = text.drop n
  | 0, text, _, c, hc => by simp [sliding_window] at hc
  | fuel + 1, text, hf, c, hc => by
    simp only [sliding_window] at hc
    split at hc
    · simp only [List.getLast?_singleton, Option.some.injEq] at hc
      exact ⟨0, by rw [← hc, List.drop_zero]⟩
    · rename_i hlen
      push_neg at hlen
      have hrlen : (text.drop (s - o)).length = text.length - (s - o) :=
        List.length_drop _ _
      have hrne : text.drop (s - o) ≠ [] := by
        intro hnil
        rw [hnil] at hrlen
        simp at hrlen
        omega
      have hrfuel : (text.drop (s - o)).length ≤ fuel := by
        rw [hrlen]; omega
      obtain ⟨b, t, htail⟩ :=
        List.exists_cons_of_ne_nil (sliding_window_ne_nil hrne hrfuel (s := s) (o := o))
      rw [htail, List.getLast?_cons_cons, ← htail] at hc
      obtain ⟨n, hn⟩ := sliding_window_getLast ho fuel (text.drop (s - o)) hrfuel c hc
      exact ⟨(s - o) + n, by rw [hn, List.drop_drop]⟩

theorem split_units_honors {s o : Nat} (ho : o < s) (text : List α) :
    honors_overlap o text (split_units s o text) := by
  unfold split_units
  split
  · exact ⟨List.chain'_nil, by simp, by simp⟩
  · rename_i hne
    have ht : text ≠ [] := by
      intro h
      rw [h] at hne
      simp at hne
    refine ⟨sliding_window_chain ho text.length text le_rfl, ?_, ?_⟩
    · intro c hc
      obtain ⟨c', hc', -, n, hn⟩ :=
        sliding_window_head (Nat.le_of_lt ho) ht (le_refl text.length) (s := s) (o := o)
      rw [hc] at hc'
      cases hc'
      exact ⟨n, hn⟩
    · intro c hc
      exact sliding_window_getLast ho text.length text le_rfl c hc

/-- Claim C2 (amended): for every text and every valid configuration with
overlap o, 0 < o < chunk size, the recursive and character strategies produce
chunk sequences in which the last o characters of chunk i equal the first o
characters of chunk i+1 at every internal boundary, with no leading overlap
on the first chunk and no trailing overlap on the last chunk; the token
strategy honours the same discipline at token level: the token chunks from
which its text chunks are decoded overlap by o tokens. -/
theorem C2_overlap_discipline (encode : List Char → List Nat) (decode : Nat → List Char)
    (s o : Nat) (hpos : 0 < o) (ho : o < s) (text : List Char) :
    (∀ chunks, chunk_text encode decode method_recursive s o text = Except.ok chunks →
      honors_overlap o text chunks) ∧
    (∀ chunks, chunk_text encode decode method_character s o text = Except.ok chunks →
      honors_overlap o text chunks) ∧
    chunk_text encode decode method_token s o text =
      Except.ok ((split_units s o (encode text)).map (fun ts => (ts.map decode).flatten)) ∧
    honors_overlap o (encode text) (split_units s o (encode text)) := by
  have hso : ¬ (s ≤ o) := by omega
  refine ⟨?_, ?_, ?_, split_units_honors ho (encode text)⟩
  · intro chunks h
    rw [chunk_text, if_pos rfl, if_neg hso] at h
    cases h
    exact split_units_honors ho text
  · intro chunks h
    rw [chunk_text, if_neg (by decide), if_pos rfl, if_neg hso] at h
    cases h
    exact split_units_honors ho text
  · rw [chunk_text, if_neg (by decide), if_neg (by decide), if_pos rfl, if_neg hso]

/-- Concrete instantiation of the amended claim C2: chunk size 3, overlap 1,
recursive strategy on a six-character text. -/
theorem C2_overlap_discipline_w :
    ((0 : Nat) < 1 ∧ (1 : Nat) < 3) ∧
    (∀ chunks, chunk_text enc0 dec0 method_recursive 3 1 txt0 = Except.ok chunks →
      honors_overlap 1 txt0 chunks) ∧
    chunk_text enc0 dec0 method_recursive 3 1 txt0 =
      Except.ok [['a', 'b', 'c'], ['c', 'd', 'e'], ['e', 'f']] :=
  ⟨⟨by decide, by decide⟩,
    (C2_overlap_discipline enc0 dec0 3 1 (by decide) (by decide) txt0).1,
    by rfl⟩

/-- Claim C2 counterexample: with the token strategy at chunk size 2 tokens
and overlap 1 token, a tokenizer whose tokens decode to two characters each
maps abcdef to the chunks abcd and cdef, and the last character of the first
chunk, d, differs from the first character of the second chunk, c: the
claimed character-level overlap equation fails for the token strategy even
though the configuration is valid. -/
theorem C2_token_char_overlap_cex :
    chunk_text enc0 dec0 method_token 2 1 txt0 =
      Except.ok [['a', 'b', 'c', 'd'], ['c', 'd', 'e', 'f']] ∧
    ¬ List.Chain' (overlap_matches 1)
        [['a', 'b', 'c', 'd'], ['c', 'd', 'e', 'f']] := by
  constructor
  · rfl
  · rw [List.chain'_pair]
    decide

/-- Claim C3: for every text and each of the three strategies, a configured
overlap at least as large as the chunk size makes chunking fail with
InvalidConfiguration; the model is a total function, so chunking terminates
rather than hanging. -/
theorem C3_invalid_configuration (encode : List Char → List Nat) (decode : Nat → List Char)
    (s o : Nat) (h : s ≤ o) (text : List Char) :
    ∀ method ∈ [method_recursive, method_character, method_token],
      chunk_text encode decode method s o text =
        Except.error ChunkError.InvalidConfiguration := by
  intro method hm
  rcases List.mem_cons.mp hm with rfl | hm
  · rw [chunk_text, if_pos rfl, if_pos h]
  rcases List.mem_cons.mp hm with rfl | hm
  · rw [chunk_text, if_neg (by decide), if_pos rfl, if_pos h]
  rcases List.mem_cons.mp hm with rfl | hm
  · rw [chunk_text, if_neg (by decide), if_neg (by decide), if_pos rfl, if_pos h]
  · exact absurd hm (List.not_mem_nil method)

/-- Concrete instantiation of claim C3: overlap 2 equals chunk size 2 and the
token strategy fails with InvalidConfiguration. -/
theorem C3_invalid_configuration_w :
    ((2 : Nat) ≤ 2 ∧ method_token ∈ [method_recursive, method_character, method_token]) ∧
    chunk_text enc0 dec0 method_token 2 2 txt0 =
      Except.error ChunkError.InvalidConfiguration :=
  ⟨⟨by decide, by decide⟩,
    C3_invalid_configuration enc0 dec0 2 2 (by decide) txt0 method_token (by decide)⟩

/-- Claim C1: a successful retrieval returns the texts of at most n_results
stored records with n_results equal to 2, ordered most similar first, and
get_relevant_context joins exactly those texts with newlines; when no text
contains a newline, splitting the context on newlines recovers the texts in
retrieval order, so the similarity order is preserved by the join. -/
theorem C1_retrieval_top2_ordered_join (score : List Rat → Rat)
    (store : List EmbRecord) (docs : List (List Char))
    (h : collection_query score store n_results = Except.ok docs) :
    n_results = 2 ∧
    docs.length ≤ n_results ∧
    docs = ((similarity_rank score store).take n_results).map (fun r => r.document) ∧
    List.Pairwise (rank_le score) ((similarity_rank score store).take n_results) ∧
    get_relevant_context score store = Except.ok (List.intercalate ['\n'] docs) ∧
    (docs ≠ [] → (∀ d ∈ docs, '\n' ∉ d) →
      (List.intercalate ['\n'] docs).splitOn '\n' = docs) := by
  have hq := h
  have hs : ¬ store.isEmpty = true := by
    intro hemp
    rw [collection_query, if_pos hemp] at h
    cases h
  rw [collection_query, if_neg hs] at h
  injection h with h
  subst h
  haveI : IsTotal EmbRecord (rank_le score) :=
    ⟨fun a b => le_total (score b.embedding) (score a.embedding)⟩
  haveI : IsTrans EmbRecord (rank_le score) :=
    ⟨fun _ _ _ hab hbc => le_trans hbc hab⟩
  refine ⟨rfl, ?_, rfl, ?_, ?_, ?_⟩
  · rw [List.length_map, List.length_take]
    exact Nat.min_le_left _ _
  · exact (List.sorted_insertionSort (rank_le score) store).sublist
      (List.take_sublist _ _)
  · rw [get_relevant_context, hq]
  · intro hne hnl
    exact List.splitOn_intercalate _ '\n' hnl hne

/-- Concrete instantiation of claim C1 on a one-record store. -/
theorem C1_retrieval_top2_ordered_join_w :
    collection_query score0 [rec0] n_results = Except.ok [['h', 'i']] ∧
    n_results = 2 ∧
    [['h', 'i']].length ≤ n_results ∧
    get_relevant_context score0 [rec0] = Except.ok (List.intercalate ['\n'] [['h', 'i']]) ∧
    (List.intercalate ['\n'] [['h', 'i']]).splitOn '\n' = [['h', 'i']] := by
  have hq : collection_query score0 [rec0] n_results = Except.ok [['h', 'i']] := by rfl
  obtain ⟨h1, h2, h3, h4, h5, h6⟩ := C1_retrieval_top2_ordered_join score0 [rec0] _ hq
  exact ⟨hq, h1, h2, h5, h6 (by simp) (by decide)⟩

/-- Claim C5: a query against an index that was never created fails when the
collection is opened, and a query against a created but empty index fails
with IndexUnavailable inside the query; retrieval never silently returns an
empty result on an empty or missing index. -/
theorem C5_empty_index_unavailable (score : List Rat → Rat) :
    get_collection none = Except.error RagError.IndexUnavailable ∧
    (∀ k, collection_query score [] k = Except.error RagError.IndexUnavailable) ∧
    get_relevant_context score [] = Except.error RagError.IndexUnavailable :=
  ⟨rfl, fun _ => rfl, rfl⟩

theorem build_records_ids (embed : List Char → Except String (List Rat)) :
    ∀ (docs : List Doc) (i : Nat) (recs : List EmbRecord),
      build_records embed docs i = Except.ok recs →
      recs.map (fun r => r.id) =
        (List.range docs.length).map (fun j => doc_id (i + j))
  | [], i, recs, h => by
    simp only [build_records] at h
    cases h
    rfl
  | d :: ds, i, recs, h => by
    simp only [build_records] at h
    cases he : embed d.page_content with
    | error e => rw [he] at h; cases h
    | ok v =>
      rw [he] at h
      cases hr : build_records embed ds (i + 1) with
      | error e => rw [hr] at h; cases h
      | ok rest =>
        rw [hr] at h
        cases h
        have ih := build_records_ids embed ds (i + 1) rest hr
        rw [List.map_cons, ih, List.length_cons, List.range_succ_eq_map,
          List.map_cons, List.map_map, List.cons_eq_cons]
        refine ⟨by simp [mk_emb_record], ?_⟩
        exact List.map_congr_left (fun a _ => by
          show doc_id (i + 1 + a) = doc_id (i + Nat.succ a)
          congr 1
          omega)

/-- Claim C7: within one run the j-th embedded chunk receives the id doc_j
from a counter that starts at zero for that run, so the id lists of any two
successful runs over nonempty inputs both contain doc_0 and ids are not
globally unique across repeated runs. -/
theorem C7_run_scoped_counter_ids
    (embed embed2 : List Char → Except String (List Rat))
    (docs docs2 : List Doc) (recs recs2 : List EmbRecord)
    (h : build_records embed docs 0 = Except.ok recs)
    (h2 : build_records embed2 docs2 0 = Except.ok recs2) :
    recs.map (fun r => r.id) = (List.range docs.length).map doc_id ∧
    recs2.map (fun r => r.id) = (List.range docs2.length).map doc_id ∧
    (docs ≠ [] → docs2 ≠ [] →
      doc_id 0 ∈ recs.map (fun r => r.id) ∧
      doc_id 0 ∈ recs2.map (fun r => r.id)) := by
  have e1 : recs.map (fun r => r.id) = (List.range docs.length).map doc_id := by
    rw [build_records_ids embed docs 0 recs h]
    exact List.map_congr_left (fun a _ => by rw [Nat.zero_add])
  have e2 : recs2.map (fun r => r.id) = (List.range docs2.length).map doc_id := by
    rw [build_records_ids embed2 docs2 0 recs2 h2]
    exact List.map_congr_left (fun a _ => by rw [Nat.zero_add])
  refine ⟨e1, e2, fun hne hne2 => ⟨?_, ?_⟩⟩
  · rw [e1]
    exact List.mem_map.mpr
      ⟨0, List.mem_range.mpr (List.length_pos.mpr hne), rfl⟩
  · rw [e2]
    exact List.mem_map.mpr
      ⟨0, List.mem_range.mpr (List.length_pos.mpr hne2), rfl⟩

/-- Concrete instantiation of claim C7 on two one-document runs. -/
theorem C7_run_scoped_counter_ids_w :
    build_records embed0 [docA] 0 = Except.ok [mk_emb_record 0 [] docA] ∧
    build_records embed0 [docB] 0 = Except.ok [mk_emb_record 0 [] docB] ∧
    [mk_emb_record 0 [] docA].map (fun r => r.id) = (List.range 1).map doc_id ∧
    (doc_id 0 ∈ [mk_emb_record 0 [] docA].map (fun r => r.id) ∧
      doc_id 0 ∈ [mk_emb_record 0 [] docB].map (fun r => r.id)) := by
  have ha : build_records embed0 [docA] 0 = Except.ok [mk_emb_record 0 [] docA] := by rfl
  have hb : build_records embed0 [docB] 0 = Except.ok [mk_emb_record 0 [] docB] := by rfl
  obtain ⟨h1, h2, h3⟩ :=
    C7_run_scoped_counter_ids embed0 embed0 [docA] [docB] _ _ ha hb
  exact ⟨ha, hb, h1, h3 (List.cons_ne_nil _ _) (List.cons_ne_nil _ _)⟩

/-- Claim C6 counterexample: the first run over one document writes a record
with id doc_0, and a second run over another document submits its record
under the same id doc_0 again, so the second run does not use new ids; after
the modelled append the store carries the duplicate id twice. -/
theorem C6_second_run_duplicate_ids_cex :
    (process_documents embed0 [docA] []).1.map (fun r => r.id) = [doc_id 0] ∧
    (process_documents embed0 [docB]
        (process_documents embed0 [docA] []).1).1.map (fun r => r.id) =
      [doc_id 0, doc_id 0] := by
  constructor
  · rfl
  · rfl

/-- Claim C6 (amended): a second indexing run appends its records to the
store through the single bulk add and never deletes or updates a record of
the first run, whose records survive unchanged as a prefix of the store; the
ids of the second run are however not new: they restart at doc_0 and so
duplicate the ids of the first run. -/
theorem C6_second_run_appends_amended
    (embed : List Char → Except String (List Rat))
    (docs : List Doc) (store batch : List EmbRecord)
    (h : build_records embed docs 0 = Except.ok batch) :
    process_documents embed docs store = (store ++ batch, none) ∧
    (store ++ batch).take store.length = store ∧
    (∀ r ∈ store, r ∈ store ++ batch) ∧
    (docs ≠ [] → doc_id 0 ∈ batch.map (fun r => r.id)) := by
  refine ⟨?_, List.take_left store batch,
    fun r hr => List.mem_append_left _ hr, fun hne => ?_⟩
  · rw [process_documents, h]
  · rw [build_records_ids embed docs 0 batch h]
    exact List.mem_map.mpr
      ⟨0, List.mem_range.mpr (List.length_pos.mpr hne), by rw [Nat.zero_add]⟩

/-- Concrete instantiation of the amended claim C6: a second one-document
run against a store holding the record of a first run. -/
theorem C6_second_run_appends_amended_w :
    build_records embed0 [docB] 0 = Except.ok [mk_emb_record 0 [] docB] ∧
    process_documents embed0 [docB] [mk_emb_record 0 [] docA] =
      ([mk_emb_record 0 [] docA] ++ [mk_emb_record 0 [] docB], none) ∧
    doc_id 0 ∈ [mk_emb_record 0 [] docB].map (fun r => r.id) := by
  have hb : build_records embed0 [docB] 0 = Except.ok [mk_emb_record 0 [] docB] := by rfl
  obtain ⟨h1, h2, h3, h4⟩ := C6_second_run_appends_amended embed0 [docB]
    [mk_emb_record 0 [] docA] [mk_emb_record 0 [] docB] hb
  exact ⟨hb, h1, h4 (List.cons_ne_nil _ _)⟩

theorem build_records_error (embed : List Char → Except String (List Rat)) :
    ∀ (docs : List Doc) (i : Nat),
      (∃ d ∈ docs, ∃ e, embed d.page_content = Except.error e) →
      ∃ e, build_records embed docs i = Except.error e
  | [], _, h => by simp at h
  | d :: ds, i, h => by
    cases he : embed d.page_content with
    | error e => exact ⟨e, by simp [build_records, he]⟩
    | ok v =>
      obtain ⟨d2, hd2, e, he2⟩ := h
      rcases List.mem_cons.mp hd2 with rfl | hd2
      · rw [he] at he2; cases he2
      · obtain ⟨e2, hrec⟩ :=
          build_records_error embed ds (i + 1) ⟨d2, hd2, e, he2⟩
        exact ⟨e2, by simp [build_records, he, hrec]⟩

/-- Claim C8: if the embedding provider fails for any chunk of a run, the
whole run surfaces an error and the single bulk add never happens, so the
store is returned unchanged: there is no partial write of the chunks
embedded before the failure. -/
theorem C8_fail_fast_no_partial_write
    (embed : List Char → Except String (List Rat))
    (docs : List Doc) (store : List EmbRecord)
    (h : ∃ d ∈ docs, ∃ e, embed d.page_content = Except.error e) :
    ∃ e, process_documents embed docs store = (store, some e) := by
  obtain ⟨e, hb⟩ := build_records_error embed docs 0 h
  exact ⟨e, by rw [process_documents, hb]⟩

/-- Concrete instantiation of claim C8: a failing embedding provider leaves
a one-record store untouched. -/
theorem C8_fail_fast_no_partial_write_w :
    (∃ d ∈ [docA], ∃ e, embed_fail d.page_content = Except.error e) ∧
    ∃ e, process_documents embed_fail [docA] [rec0] = ([rec0], some e) :=
  ⟨⟨docA, List.mem_singleton.mpr rfl, boom_msg, rfl⟩,
    C8_fail_fast_no_partial_write embed_fail [docA] [rec0]
      ⟨docA, List.mem_singleton.mpr rfl, boom_msg, rfl⟩⟩

/-- Claim C4: the generator builds exactly two messages, the fixed system
instruction first and then one user message embedding the context and the
query in the fixed template, submits them in that order to the language
model, and the session displays the provider response verbatim except for
stripping surrounding whitespace. -/
theorem C4_two_message_prompt_trimmed_display
    (retrieve : List Char → Except String (List Char))
    (llm : List Message → Except String (List Char)) (raw : List Char)
    (context response : List Char)
    (hr : retrieve (py_strip raw) = Except.ok context)
    (hl : llm (build_messages context (py_strip raw)) = Except.ok response) :
    build_messages context (py_strip raw) =
      [⟨Role.system, system_message.data⟩,
        ⟨Role.user, "Context: ".data ++ context ++
          "\n\n    Question: ".data ++ py_strip raw⟩] ∧
    generate_response llm context (py_strip raw) = Except.ok response ∧
    handle_query retrieve llm (py_strip raw) =
      ChatEvent.assistant (py_strip response) := by
  refine ⟨rfl, hl, ?_⟩
  simp only [handle_query, hr, generate_response, hl]

/-- Concrete instantiation of claim C4: a provider response with surrounding
whitespace is displayed stripped. -/
theorem C4_two_message_prompt_trimmed_display_w :
    (retrieve0 (py_strip q0) = Except.ok ctx0 ∧
      llm0 (build_messages ctx0 (py_strip q0)) = Except.ok resp0) ∧
    handle_query retrieve0 llm0 (py_strip q0) = ChatEvent.assistant ['o', 'k'] := by
  have h := C4_two_message_prompt_trimmed_display retrieve0 llm0 q0 ctx0 resp0 rfl rfl
  exact ⟨⟨rfl, rfl⟩, h.2.2⟩

/-- Claim C9: for every query processed by the session loop, a failure
during retrieval or during generation is caught and reported to the user as
an error event, and the loop continues with the remaining inputs instead of
terminating the session. -/
theorem C9_per_query_errors_caught
    (retrieve : List Char → Except String (List Char))
    (llm : List Message → Except String (List Char))
    (raw : List Char) (rest : List (List Char))
    (hexit : py_lower (py_strip raw) ∉ exit_commands) (hne : py_strip raw ≠ []) :
    (∀ e, retrieve (py_strip raw) = Except.error e →
      chat_loop retrieve llm (raw :: rest) =
        ChatEvent.errorReport e :: chat_loop retrieve llm rest) ∧
    (∀ context e, retrieve (py_strip raw) = Except.ok context →
      llm (build_messages context (py_strip raw)) = Except.error e →
      chat_loop retrieve llm (raw :: rest) =
        ChatEvent.errorReport e :: chat_loop retrieve llm rest) := by
  constructor
  · intro e he
    simp only [chat_loop, if_neg hexit, if_neg hne, handle_query, he]
  · intro context e hc he
    simp only [chat_loop, if_neg hexit, if_neg hne, handle_query, hc,
      generate_response, he]

/-- Concrete instantiation of claim C9: a failing retrieval on one query is
reported and the loop goes on to the next input. -/
theorem C9_per_query_errors_caught_w :
    (py_lower (py_strip q0) ∉ exit_commands ∧ py_strip q0 ≠ [] ∧
      retrieve_fail (py_strip q0) = Except.error boom_msg) ∧
    chat_loop retrieve_fail llm0 [q0] = [ChatEvent.errorReport boom_msg] := by
  have h := (C9_per_query_errors_caught retrieve_fail llm0 q0 []
    (by decide) (by decide)).1 boom_msg rfl
  refine ⟨⟨by decide, by decide, rfl⟩, ?_⟩
  rw [h]
  rfl

theorem handle_query_ne_exited
    (retrieve : List Char → Except String (List Char))
    (llm : List Message → Except String (List Char)) (query : List Char) :
    handle_query retrieve llm query ≠ ChatEvent.exited := by
  unfold handle_query
  cases hr : retrieve query with
  | error e => simp
  | ok context =>
    cases hg : generate_response llm context query with
    | error e => simp [hg]
    | ok response => simp [hg]

/-- Claim C10: the session loop terminates exactly when the raw input,
stripped of surrounding whitespace and lowercased, equals quit or exit, and
an input that is empty after stripping is skipped without invoking retrieval
or generation, the loop moving on to the next input. -/
theorem C10_exit_keywords_and_empty_skip
    (retrieve : List Char → Except String (List Char))
    (llm : List Message → Except String (List Char))
    (raw : List Char) (rest : List (List Char)) :
    (chat_loop retrieve llm (raw :: rest) = [ChatEvent.exited] ↔
      py_lower (py_strip raw) = "quit".data ∨ py_lower (py_strip raw) = "exit".data) ∧
    (py_strip raw = [] → chat_loop retrieve llm (raw :: rest) =
      ChatEvent.skipped :: chat_loop retrieve llm rest) := by
  have hmem : py_lower (py_strip raw) ∈ exit_commands ↔
      (py_lower (py_strip raw) = "quit".data ∨
        py_lower (py_strip raw) = "exit".data) := by
    simp [exit_commands]
  constructor
  · constructor
    · intro h
      rw [← hmem]
      by_contra hn
      simp only [chat_loop, if_neg hn] at h
      by_cases hq : py_strip raw = []
      · rw [if_pos hq] at h
        simp at h
      · rw [if_neg hq] at h
        simp only [List.cons.injEq] at h
        exact handle_query_ne_exited retrieve llm (py_strip raw) h.1
    · intro h
      simp only [chat_loop, if_pos (hmem.mpr h)]
  · intro hq
    have hn : py_lower (py_strip raw) ∉ exit_commands := by
      rw [hq]
      decide
    simp only [chat_loop, if_neg hn, if_pos hq]

/-- Concrete instantiation of claim C10: the padded upper-case input QUIT
ends the session, and a blank input is skipped while the loop continues. -/
theorem C10_exit_keywords_and_empty_skip_w :
    (py_lower (py_strip quit_raw) = "quit".data ∨
      py_lower (py_strip quit_raw) = "exit".data) ∧
    chat_loop retrieve0 llm0 [quit_raw, q0] = [ChatEvent.exited] ∧
    py_strip blank_raw = [] ∧
    chat_loop retrieve0 llm0 [blank_raw, q0] =
      ChatEvent.skipped :: chat_loop retrieve0 llm0 [q0] := by
  have h1 := (C10_exit_keywords_and_empty_skip retrieve0 llm0 quit_raw [q0]).1.mpr
    (Or.inl (by decide))
  have h2 := (C10_exit_keywords_and_empty_skip retrieve0 llm0 blank_raw [q0]).2
    (by decide)
  exact ⟨Or.inl (by decide), h1, by decide, h2⟩

end RagDemo
